import Mathlib

/-!
Verification of the Pomodoro timer core (phase state machine, cycle counter,
statistics aggregator) against its natural-language specification.

The model is a shallow embedding of `pomodoro/ui/main.py` (class
`PomodoroTimer`) and `pomodoro/utils/statistics.py`.  Pure UI calls
(label/button updates, progress rings, notifications) are dropped; the
observable side effects that the specification talks about are kept as
instrumentation counters in the state:

* `soundCount` counts `play_sound()` invocations (the audible cue),
* `recordCount` counts `record_pomodoro(...)` invocations,
* `completions` counts `_handle_timer_complete()` invocations,
* `validationErrors` counts `_show_validation_error(...)` invocations,
* `appliedState` records which `_apply_*_state()` visual style was applied
  last (the code distinguishes a short break from a long break only through
  these calls and through `time_left`).

The `tkinter` callback chain (`self.master.after(1000, self.update_timer)`)
is the external once-per-second scheduler; a scheduled invocation of
`update_timer` is one `tick()` of the spec.  The source's
`_handle_timer_complete` re-enters `update_timer` synchronously when an
auto-start flag is set, so the two functions are modelled as a mutual
recursion over an explicit fuel (the fuel is never exhausted for positive
phase durations; fuel 0 returns the state unchanged, standing for the
unbounded recursion the source would perform on a zero-length phase).

The warning comparison `time_left <= WARNING_THRESHOLD * self.work_time`
(with `WARNING_THRESHOLD = 0.1`) is modelled exactly as the rational
comparison `10 * time_left ≤ work_time`; no claim depends on the sub-ulp
rounding of the float constant `0.1`.
-/

namespace Pomodoro

/-- Visual style applied by the `_apply_*_state` helpers of the source:
`focus` for `_apply_work_state`, `warning` for `_apply_warning_state`,
`shortBreak` for `_apply_break_state`, `longBreak` for
`_apply_long_break_state`, `idle` for `_apply_idle_state`. -/
inductive ApplyState where
  | focus
  | warning
  | shortBreak
  | longBreak
  | idle
deriving DecidableEq, Repr

/-- State of a `PomodoroTimer` instance: the configuration fields
(`work_time`, `break_time`, `long_break_time`, `pomodoros_until_long_break`,
auto-start flags), the timer fields (`is_working`, `timer_running`,
`paused`, `time_left`, `pomodoro_count`, `total_session_pomodoros`) and the
instrumentation counters for the observable side effects. -/
@[ext] structure PState where
  workTime : Nat
  breakTime : Nat
  longBreakTime : Nat
  pomodorosUntilLongBreak : Nat
  autoStartBreaks : Bool
  autoStartWork : Bool
  isWorking : Bool
  timerRunning : Bool
  paused : Bool
  timeLeft : Nat
  pomodoroCount : Nat
  totalSessionPomodoros : Nat
  soundCount : Nat
  recordCount : Nat
  completions : Nat
  validationErrors : Nat
  appliedState : ApplyState
deriving DecidableEq, Repr

/-- Initial state of `PomodoroTimer.__init__`: durations are the configured
minutes times 60, `is_working = True`, `timer_running = False`,
`paused = False`, `time_left = work_time`, counters zero. -/
def initState (workMin breakMin longBreakMin cycle : Nat)
    (autoBreaks autoWork : Bool) : PState where
  workTime := workMin * 60
  breakTime := breakMin * 60
  longBreakTime := longBreakMin * 60
  pomodorosUntilLongBreak := cycle
  autoStartBreaks := autoBreaks
  autoStartWork := autoWork
  isWorking := true
  timerRunning := false
  paused := false
  timeLeft := workMin * 60
  pomodoroCount := 0
  totalSessionPomodoros := 0
  soundCount := 0
  recordCount := 0
  completions := 0
  validationErrors := 0
  appliedState := ApplyState.idle

mutual

/-- Model of `PomodoroTimer.update_timer` (one scheduled invocation).
While running it decrements `time_left` when positive (updating the
work-phase visual to warning or focus, exactly the source branch on
`time_left <= WARNING_THRESHOLD * work_time`); at zero it calls
`_handle_timer_complete`. -/
def update_timer (fuel : Nat) (s : PState) : PState :=
  match fuel with
  | 0 => s
  | fuel + 1 =>
    if s.timerRunning = true then
      if 0 < s.timeLeft then
        { s with
          timeLeft := s.timeLeft - 1
          appliedState :=
            if s.isWorking = true then
              if 10 * (s.timeLeft - 1) ≤ s.workTime then ApplyState.warning
              else ApplyState.focus
            else s.appliedState }
      else handle_timer_complete fuel s
    else s
termination_by 2 * fuel + 1

/-- Model of `PomodoroTimer._handle_timer_complete`: plays the completion
sound, and on a work phase increments `pomodoro_count` and
`total_session_pomodoros`, records the pomodoro, then selects the long
break exactly when `pomodoro_count % pomodoros_until_long_break == 0`
(the check runs strictly after the increment); on a break phase it returns
to a full work phase.  With the corresponding auto-start flag set it
re-enters `update_timer` synchronously, otherwise it stops running. -/
def handle_timer_complete (fuel : Nat) (s : PState) : PState :=
  let s1 := { s with
    soundCount := s.soundCount + 1
    completions := s.completions + 1 }
  if s1.isWorking = true then
    let s2 := { s1 with
      pomodoroCount := s1.pomodoroCount + 1
      totalSessionPomodoros := s1.totalSessionPomodoros + 1
      recordCount := s1.recordCount + 1 }
    let s3 :=
      if s2.pomodoroCount % s2.pomodorosUntilLongBreak = 0 then
        { s2 with timeLeft := s2.longBreakTime, appliedState := ApplyState.longBreak }
      else
        { s2 with timeLeft := s2.breakTime, appliedState := ApplyState.shortBreak }
    if s3.autoStartBreaks = true then
      update_timer fuel { s3 with isWorking := false }
    else
      { s3 with timerRunning := false, isWorking := false }
  else
    let s2 := { s1 with timeLeft := s1.workTime }
    if s2.autoStartWork = true then
      update_timer fuel { s2 with isWorking := true, appliedState := ApplyState.focus }
    else
      { s2 with timerRunning := false, isWorking := true, appliedState := ApplyState.idle }
termination_by 2 * fuel + 2

end

/-- One scheduled invocation of `update_timer` — the `tick()` of the spec. -/
def tick (s : PState) : PState := update_timer 1 s

/-- Iterated ticks, applying the earliest tick first. -/
def ticks : Nat → PState → PState
  | 0, s => s
  | k + 1, s => ticks k (tick s)

/-- Model of `PomodoroTimer.start_timer`: a no-op while running; otherwise
plays the start cue only when not resuming from pause, clears `paused`,
sets `timer_running`, applies the visual state of the current phase (a
break counts as long exactly when `time_left == long_break_time`), and
invokes `update_timer` synchronously. -/
def start_timer (fuel : Nat) (s : PState) : PState :=
  if s.timerRunning = true then s
  else
    let s1 :=
      if s.paused = true then { s with paused := false }
      else { s with soundCount := s.soundCount + 1 }
    let s2 := { s1 with timerRunning := true }
    let s3 :=
      if s2.isWorking = true then { s2 with appliedState := ApplyState.focus }
      else if s2.timeLeft = s2.longBreakTime then
        { s2 with appliedState := ApplyState.longBreak }
      else { s2 with appliedState := ApplyState.shortBreak }
    update_timer fuel s3

/-- Model of `PomodoroTimer.pause_timer`: while running it suspends
(`timer_running = False`, `paused = True`); while paused it resumes through
`start_timer`; otherwise a no-op. -/
def pause_timer (fuel : Nat) (s : PState) : PState :=
  if s.timerRunning = true then { s with timerRunning := false, paused := true }
  else if s.paused = true then start_timer fuel s
  else s

/-- Model of `PomodoroTimer.reset_timer`: unconditionally stops and returns
to a full idle work phase.  The cycle counter is untouched. -/
def reset_timer (s : PState) : PState :=
  { s with
    timerRunning := false
    paused := false
    isWorking := true
    timeLeft := s.workTime
    appliedState := ApplyState.idle }

/-- Model of `PomodoroTimer.reset_session`: zeroes the session counters and
resets the timer. -/
def reset_session (s : PState) : PState :=
  reset_timer { s with pomodoroCount := 0, totalSessionPomodoros := 0 }

/-- Model of `PomodoroTimer.skip_phase`: a no-op when neither running nor
paused; otherwise stops, and from a work phase moves to a break (the long
break exactly when `pomodoro_count % pomodoros_until_long_break ==
pomodoros_until_long_break - 1`) without touching `pomodoro_count` or
recording anything, while from a break it returns to a full work phase. -/
def skip_phase (s : PState) : PState :=
  if s.timerRunning = false ∧ s.paused = false then s
  else
    let s1 := { s with timerRunning := false, paused := false }
    if s1.isWorking = true then
      let s2 :=
        if s1.pomodoroCount % s1.pomodorosUntilLongBreak =
            s1.pomodorosUntilLongBreak - 1 then
          { s1 with timeLeft := s1.longBreakTime, appliedState := ApplyState.longBreak }
        else
          { s1 with timeLeft := s1.breakTime, appliedState := ApplyState.shortBreak }
      { s2 with isWorking := false }
    else
      { s1 with timeLeft := s1.workTime, appliedState := ApplyState.idle, isWorking := true }

/-- Model of `PomodoroTimer.update_times`.  The four entry widgets hold the
parse results of `int(...)` on their text (`none` models a `ValueError`).
The method returns immediately while running or paused; each failed
validation shows a validation error and leaves the state otherwise
unchanged; on success all four configuration fields are applied and the
timer is reset. -/
def update_times (s : PState)
    (workE breakE longE pomoE : Option Int) : PState :=
  if s.timerRunning = true ∨ s.paused = true then s
  else
    match workE, breakE, longE, pomoE with
    | some w, some b, some l, some p =>
      if ¬(1 ≤ w ∧ w ≤ 1440) then
        { s with validationErrors := s.validationErrors + 1 }
      else if ¬(1 ≤ b ∧ b ≤ 1440) then
        { s with validationErrors := s.validationErrors + 1 }
      else if ¬(1 ≤ l ∧ l ≤ 1440) then
        { s with validationErrors := s.validationErrors + 1 }
      else if ¬(1 ≤ p ∧ p ≤ 10) then
        { s with validationErrors := s.validationErrors + 1 }
      else
        reset_timer { s with
          workTime := (w * 60).toNat
          breakTime := (b * 60).toNat
          longBreakTime := (l * 60).toNat
          pomodorosUntilLongBreak := p.toNat }
    | _, _, _, _ => { s with validationErrors := s.validationErrors + 1 }

/-!
Statistics aggregator, a shallow embedding of `pomodoro/utils/statistics.py`.

Calendar dates are modelled by their proleptic Gregorian ordinal (an `Int`),
which is what `datetime.date` subtraction computes with; `date.isoformat()`
is a bijection between dates and ISO date strings, so keying `daily_stats`
by the date itself is keying it by its ISO string.  The ISO year-week key
`f"(year)-W(week)"` is kept as the opaque `String` the code builds.  The
statistics file is modelled by `StoreContent`: missing file, undecodable or
unreadable file (`json.JSONDecodeError` / `OSError`), or a well-formed
stored structure.
-/

/-- Per-period entry of `daily_stats` / `weekly_stats`. -/
@[ext] structure PeriodStat where
  pomodoros : Nat
  minutes : Nat
deriving DecidableEq, Repr

/-- Persisted statistics structure. -/
@[ext] structure Stats where
  total_pomodoros : Nat
  total_work_minutes : Nat
  daily_stats : List (Int × PeriodStat)
  weekly_stats : List (String × PeriodStat)
  streak_days : Nat
  last_pomodoro_date : Option Int
deriving DecidableEq, Repr

/-- Content of the statistics file. -/
inductive StoreContent where
  | missing
  | corrupt
  | valid (stats : Stats)
deriving DecidableEq, Repr

/-- Zeroed default structure returned by `load_statistics` when the file is
missing or unreadable. -/
def default_statistics : Stats where
  total_pomodoros := 0
  total_work_minutes := 0
  daily_stats := []
  weekly_stats := []
  streak_days := 0
  last_pomodoro_date := none

/-- Model of `load_statistics`: the stored structure when the file exists
and decodes, the zeroed default otherwise. -/
def load_statistics : StoreContent → Stats
  | StoreContent.valid stats => stats
  | _ => default_statistics

/-- Python dict upsert performed on `daily_stats` / `weekly_stats`: create
the entry at zero if the key is absent, then add one pomodoro and
`workMinutes` minutes to it.  An existing key keeps its position, a new key
is appended, as for a Python dict. -/
def bumpEntry {α : Type} [DecidableEq α] :
    List (α × PeriodStat) → α → Nat → List (α × PeriodStat)
  | [], key, workMinutes => [(key, ⟨1, workMinutes⟩)]
  | (k, v) :: rest, key, workMinutes =>
    if k = key then
      (k, ⟨v.pomodoros + 1, v.minutes + workMinutes⟩) :: rest
    else
      (k, v) :: bumpEntry rest key workMinutes

/-- Python `dict.get(key, default)` on an association list. -/
def dictGet {α : Type} [DecidableEq α] :
    List (α × PeriodStat) → α → PeriodStat → PeriodStat
  | [], _, dflt => dflt
  | (k, v) :: rest, key, dflt => if k = key then v else dictGet rest key dflt

/-- Membership of a key in an association list (Python `key in dict`). -/
def hasEntry {α : Type} [DecidableEq α] :
    List (α × PeriodStat) → α → Bool
  | [], _ => false
  | (k, _) :: rest, key => if k = key then true else hasEntry rest key

/-- Model of `record_pomodoro(work_minutes)`: loads the store, increments
the totals, upserts today's daily entry and the current weekly entry, and
updates the streak — unchanged when the last recorded date is today or later,
incremented on a one-day gap, reset to 1 on a larger gap or when no date was
stored — then stamps `last_pomodoro_date = today`.  The clock reads
(`date.today()` and the week key) are the `today` / `weekKey` parameters. -/
def record_pomodoro (store : StoreContent) (today : Int) (weekKey : String)
    (workMinutes : Nat) : Stats :=
  let stats := load_statistics store
  let stats := { stats with
    total_pomodoros := stats.total_pomodoros + 1
    total_work_minutes := stats.total_work_minutes + workMinutes }
  let stats := { stats with
    daily_stats := bumpEntry stats.daily_stats today workMinutes }
  let stats := { stats with
    weekly_stats := bumpEntry stats.weekly_stats weekKey workMinutes }
  let stats :=
    match stats.last_pomodoro_date with
    | some last =>
      let diff := today - last
      if diff = 1 then { stats with streak_days := stats.streak_days + 1 }
      else if 1 < diff then { stats with streak_days := 1 }
      else stats
    | none => { stats with streak_days := 1 }
  { stats with last_pomodoro_date := some today }

/-- Model of `get_today_stats`: today's daily entry, zeroed when absent. -/
def get_today_stats (store : StoreContent) (today : Int) : PeriodStat :=
  dictGet (load_statistics store).daily_stats today ⟨0, 0⟩

/-- Model of `get_week_stats`: the current weekly entry, zeroed when absent. -/
def get_week_stats (store : StoreContent) (weekKey : String) : PeriodStat :=
  dictGet (load_statistics store).weekly_stats weekKey ⟨0, 0⟩

/-- Model of `get_total_stats`: the cumulative totals and the streak. -/
def get_total_stats (store : StoreContent) : Nat × Nat × Nat :=
  let stats := load_statistics store
  (stats.total_pomodoros, stats.total_work_minutes, stats.streak_days)

/-- Sum of the per-entry pomodoro counts of an association list. -/
def sumPomodoros {α : Type} (entries : List (α × PeriodStat)) : Nat :=
  entries.foldr (fun kv acc => kv.2.pomodoros + acc) 0

/-- Natural completion of the currently selected phase from an idle state:
the user presses start (`start_timer`, which performs the first scheduled
countdown step synchronously) and the remaining `timeLeft` scheduled
invocations of `update_timer` run the countdown to zero and fire
`_handle_timer_complete` once. -/
def runPhaseToCompletion (s : PState) : PState :=
  ticks s.timeLeft (start_timer 1 s)

/-- State after `n` consecutive natural work-session completions starting
from `s0`: each step completes the pending break first (one natural break
completion) when the state sits at a break, then completes the next work
session. -/
def afterNWorkCompletions (s0 : PState) : Nat → PState
  | 0 => s0
  | n + 1 =>
    let s := afterNWorkCompletions s0 n
    if s.isWorking = true then runPhaseToCompletion s
    else runPhaseToCompletion (runPhaseToCompletion s)

/-- Expected shape of the state right after the `n`-th natural work-session
completion (for `n ≥ 1`, manual mode): idle on the selected break, counters
advanced; two cues per completed phase and one recorded pomodoro per
completed work session. -/
def afterShape (workMin breakMin longBreakMin cycle n : Nat) : PState :=
  { initState workMin breakMin longBreakMin cycle false false with
    isWorking := false
    pomodoroCount := n
    totalSessionPomodoros := n
    recordCount := n
    completions := 2 * n - 1
    soundCount := 4 * n - 2
    timeLeft := if n % cycle = 0 then longBreakMin * 60 else breakMin * 60
    appliedState :=
      if n % cycle = 0 then ApplyState.longBreak else ApplyState.shortBreak }

/-- Mutual exclusion of `timer_running` and `paused`. -/
def Inv (s : PState) : Prop :=
  ¬ (s.timerRunning = true ∧ s.paused = true)

instance (s : PState) : Decidable (Inv s) := by
  unfold Inv; infer_instance

/-- Validity of one settings entry: it parsed as an integer inside the
accepted range. -/
def entryOk (e : Option Int) (lo hi : Int) : Bool :=
  match e with
  | some v => decide (lo ≤ v) && decide (v ≤ hi)
  | none => false

/-! ### Basic lemmas about the tick loop -/

theorem ticks_zero (s : PState) : ticks 0 s = s := rfl

theorem ticks_succ (k : Nat) (s : PState) : ticks (k + 1) s = ticks k (tick s) := rfl

theorem ticks_succ' (k : Nat) (s : PState) : ticks (k + 1) s = tick (ticks k s) := by
  induction k generalizing s with
  | zero => rfl
  | succ k ih =>
    rw [ticks_succ, ih, ← ticks_succ]

/-- A scheduled `update_timer` invocation on a running state with time on
the clock decrements and refreshes the work-phase visual. -/
theorem tick_decrement (s : PState) (hr : s.timerRunning = true) (ht : 0 < s.timeLeft) :
    tick s =
      { s with
        timeLeft := s.timeLeft - 1
        appliedState :=
          if s.isWorking = true then
            if 10 * (s.timeLeft - 1) ≤ s.workTime then ApplyState.warning
            else ApplyState.focus
          else s.appliedState } := by
  simp [tick, update_timer, hr, ht]

/-- A scheduled `update_timer` invocation on a running state at zero
performs the phase completion. -/
theorem tick_complete (s : PState) (hr : s.timerRunning = true) (ht : s.timeLeft = 0) :
    tick s = handle_timer_complete 0 s := by
  simp [tick, update_timer, hr, ht]

/-- Running a work-phase countdown for `k ≤ timeLeft` seconds from a state
whose visual already reflects the countdown decrements `timeLeft` by `k`
and keeps the visual in the countdown shape. -/
theorem ticks_work_run (k : Nat) :
    ∀ s : PState, s.timerRunning = true → s.isWorking = true →
      s.appliedState =
        (if 10 * s.timeLeft ≤ s.workTime then ApplyState.warning else ApplyState.focus) →
      k ≤ s.timeLeft →
      ticks k s =
        { s with
          timeLeft := s.timeLeft - k
          appliedState :=
            if 10 * (s.timeLeft - k) ≤ s.workTime then ApplyState.warning
            else ApplyState.focus } := by
  induction k with
  | zero =>
    intro s hr hw hshape hk
    rw [ticks_zero, Nat.sub_zero, ← hshape]
  | succ k ih =>
    intro s hr hw hshape hk
    have hstep : tick s =
        { s with
          timeLeft := s.timeLeft - 1
          appliedState :=
            if 10 * (s.timeLeft - 1) ≤ s.workTime then ApplyState.warning
            else ApplyState.focus } := by
      rw [tick_decrement s hr (by omega)]
      rw [hw]
      simp
    have hrec := ih
      { s with
        timeLeft := s.timeLeft - 1
        appliedState :=
          if 10 * (s.timeLeft - 1) ≤ s.workTime then ApplyState.warning
          else ApplyState.focus }
      hr hw rfl (by simp; omega)
    rw [ticks_succ, hstep, hrec]
    have harith : s.timeLeft - 1 - k = s.timeLeft - (k + 1) := by omega
    simp [harith]

/-- Running a break-phase countdown for `k ≤ timeLeft` seconds decrements
`timeLeft` by `k` and changes nothing else. -/
theorem ticks_break_run (k : Nat) :
    ∀ s : PState, s.timerRunning = true → s.isWorking = false →
      k ≤ s.timeLeft →
      ticks k s = { s with timeLeft := s.timeLeft - k } := by
  induction k with
  | zero =>
    intro s hr hw hk
    rw [ticks_zero, Nat.sub_zero]
  | succ k ih =>
    intro s hr hw hk
    have hstep : tick s = { s with timeLeft := s.timeLeft - 1 } := by
      rw [tick_decrement s hr (by omega)]
      rw [hw]
      simp
    have hrec := ih { s with timeLeft := s.timeLeft - 1 } hr hw (by simp; omega)
    rw [ticks_succ, hstep, hrec]
    have harith : s.timeLeft - 1 - k = s.timeLeft - (k + 1) := by omega
    simp [harith]

/-! ### Closed forms of the completion handler and of start -/

/-- Completion of a work phase with `auto_start_breaks` off: the counters
advance, the pomodoro is recorded, the break is selected by the
post-increment modulo check, and the timer stops. -/
theorem handle_work_noauto (fuel : Nat) (s : PState)
    (hw : s.isWorking = true) (hb : s.autoStartBreaks = false) :
    handle_timer_complete fuel s =
      if (s.pomodoroCount + 1) % s.pomodorosUntilLongBreak = 0 then
        { s with
          soundCount := s.soundCount + 1
          completions := s.completions + 1
          pomodoroCount := s.pomodoroCount + 1
          totalSessionPomodoros := s.totalSessionPomodoros + 1
          recordCount := s.recordCount + 1
          timeLeft := s.longBreakTime
          appliedState := ApplyState.longBreak
          timerRunning := false
          isWorking := false }
      else
        { s with
          soundCount := s.soundCount + 1
          completions := s.completions + 1
          pomodoroCount := s.pomodoroCount + 1
          totalSessionPomodoros := s.totalSessionPomodoros + 1
          recordCount := s.recordCount + 1
          timeLeft := s.breakTime
          appliedState := ApplyState.shortBreak
          timerRunning := false
          isWorking := false } := by
  by_cases hmod : (s.pomodoroCount + 1) % s.pomodorosUntilLongBreak = 0 <;>
    simp [handle_timer_complete, hw, hb, hmod]

/-- Completion of a break phase with `auto_start_work` off: the timer
returns to a full idle work phase; the cycle counter is untouched. -/
theorem handle_break_noauto (fuel : Nat) (s : PState)
    (hw : s.isWorking = false) (ha : s.autoStartWork = false) :
    handle_timer_complete fuel s =
      { s with
        soundCount := s.soundCount + 1
        completions := s.completions + 1
        timeLeft := s.workTime
        timerRunning := false
        isWorking := true
        appliedState := ApplyState.idle } := by
  rw [handle_timer_complete]
  simp [hw, ha]

/-- Starting an idle work phase with time on the clock: the start cue
plays, the timer runs, and the synchronous `update_timer` call inside
`start_timer` performs the first countdown step at once. -/
theorem start_idle_work (s : PState)
    (hr : s.timerRunning = false) (hp : s.paused = false)
    (hw : s.isWorking = true) (ht : 0 < s.timeLeft) :
    start_timer 1 s =
      { s with
        soundCount := s.soundCount + 1
        timerRunning := true
        timeLeft := s.timeLeft - 1
        appliedState :=
          if 10 * (s.timeLeft - 1) ≤ s.workTime then ApplyState.warning
          else ApplyState.focus } := by
  rw [start_timer]
  simp only [hr, hp, hw]
  rw [update_timer]
  simp [ht, hw]

/-- Starting an idle break phase with time on the clock. -/
theorem start_idle_break (s : PState)
    (hr : s.timerRunning = false) (hp : s.paused = false)
    (hw : s.isWorking = false) (ht : 0 < s.timeLeft) :
    start_timer 1 s =
      { s with
        soundCount := s.soundCount + 1
        timerRunning := true
        timeLeft := s.timeLeft - 1
        appliedState :=
          if s.timeLeft = s.longBreakTime then ApplyState.longBreak
          else ApplyState.shortBreak } := by
  by_cases hL : s.timeLeft = s.longBreakTime <;>
    · rw [start_timer]
      simp only [hr, hp, hw, hL]
      rw [update_timer]
      simp [ht, hw, hL]
      all_goals (intro h0; omega)

/-! ### One natural phase completion from an idle state -/

/-- Natural completion of a work session from an idle work phase with
`auto_start_breaks` off: press start, run the countdown to zero, fire the
completion; the start cue and the completion cue play, the pomodoro is
counted and recorded, and the break selected by the post-increment modulo
check sits idle on the clock. -/
theorem runPhase_work (s : PState)
    (hr : s.timerRunning = false) (hp : s.paused = false)
    (hw : s.isWorking = true) (hb : s.autoStartBreaks = false)
    (ht : 0 < s.timeLeft) :
    runPhaseToCompletion s =
      if (s.pomodoroCount + 1) % s.pomodorosUntilLongBreak = 0 then
        { s with
          soundCount := s.soundCount + 2
          completions := s.completions + 1
          pomodoroCount := s.pomodoroCount + 1
          totalSessionPomodoros := s.totalSessionPomodoros + 1
          recordCount := s.recordCount + 1
          timerRunning := false
          isWorking := false
          timeLeft := s.longBreakTime
          appliedState := ApplyState.longBreak }
      else
        { s with
          soundCount := s.soundCount + 2
          completions := s.completions + 1
          pomodoroCount := s.pomodoroCount + 1
          totalSessionPomodoros := s.totalSessionPomodoros + 1
          recordCount := s.recordCount + 1
          timerRunning := false
          isWorking := false
          timeLeft := s.breakTime
          appliedState := ApplyState.shortBreak } := by
  obtain ⟨m, hm⟩ : ∃ m, s.timeLeft = m + 1 := ⟨s.timeLeft - 1, by omega⟩
  have hstart : start_timer 1 s =
      { s with
        soundCount := s.soundCount + 1
        timerRunning := true
        timeLeft := m
        appliedState :=
          if 10 * m ≤ s.workTime then ApplyState.warning else ApplyState.focus } := by
    rw [start_idle_work s hr hp hw ht, hm]
    simp
  have hrun : ticks m
      { s with
        soundCount := s.soundCount + 1
        timerRunning := true
        timeLeft := m
        appliedState :=
          if 10 * m ≤ s.workTime then ApplyState.warning else ApplyState.focus } =
      { s with
        soundCount := s.soundCount + 1
        timerRunning := true
        timeLeft := 0
        appliedState := ApplyState.warning } := by
    rw [ticks_work_run m
      { s with
        soundCount := s.soundCount + 1
        timerRunning := true
        timeLeft := m
        appliedState :=
          if 10 * m ≤ s.workTime then ApplyState.warning else ApplyState.focus }
      rfl hw rfl (Nat.le_refl _)]
    simp
  have hcomp := tick_complete
    { s with
      soundCount := s.soundCount + 1
      timerRunning := true
      timeLeft := 0
      appliedState := ApplyState.warning } rfl rfl
  have hhandle := handle_work_noauto 0
    { s with
      soundCount := s.soundCount + 1
      timerRunning := true
      timeLeft := 0
      appliedState := ApplyState.warning } hw hb
  rw [runPhaseToCompletion, hstart, hm, ticks_succ', hrun, hcomp, hhandle]

/-- Natural completion of a break phase from an idle break state with
`auto_start_work` off: press start, run the countdown to zero, fire the
completion; a full idle work phase results and the cycle counter and the
record count are untouched. -/
theorem runPhase_break (s : PState)
    (hr : s.timerRunning = false) (hp : s.paused = false)
    (hw : s.isWorking = false) (ha : s.autoStartWork = false)
    (ht : 0 < s.timeLeft) :
    runPhaseToCompletion s =
      { s with
        soundCount := s.soundCount + 2
        completions := s.completions + 1
        timerRunning := false
        isWorking := true
        timeLeft := s.workTime
        appliedState := ApplyState.idle } := by
  obtain ⟨m, hm⟩ : ∃ m, s.timeLeft = m + 1 := ⟨s.timeLeft - 1, by omega⟩
  have hstart : start_timer 1 s =
      { s with
        soundCount := s.soundCount + 1
        timerRunning := true
        timeLeft := m
        appliedState :=
          if m + 1 = s.longBreakTime then ApplyState.longBreak
          else ApplyState.shortBreak } := by
    rw [start_idle_break s hr hp hw ht, hm]
    simp
  have hrun : ticks m
      { s with
        soundCount := s.soundCount + 1
        timerRunning := true
        timeLeft := m
        appliedState :=
          if m + 1 = s.longBreakTime then ApplyState.longBreak
          else ApplyState.shortBreak } =
      { s with
        soundCount := s.soundCount + 1
        timerRunning := true
        timeLeft := 0
        appliedState :=
          if m + 1 = s.longBreakTime then ApplyState.longBreak
          else ApplyState.shortBreak } := by
    rw [ticks_break_run m
      { s with
        soundCount := s.soundCount + 1
        timerRunning := true
        timeLeft := m
        appliedState :=
          if m + 1 = s.longBreakTime then ApplyState.longBreak
          else ApplyState.shortBreak }
      rfl hw (Nat.le_refl _)]
    simp
  have hcomp := tick_complete
    { s with
      soundCount := s.soundCount + 1
      timerRunning := true
      timeLeft := 0
      appliedState :=
        if m + 1 = s.longBreakTime then ApplyState.longBreak
        else ApplyState.shortBreak } rfl rfl
  have hhandle := handle_break_noauto 0
    { s with
      soundCount := s.soundCount + 1
      timerRunning := true
      timeLeft := 0
      appliedState :=
        if m + 1 = s.longBreakTime then ApplyState.longBreak
        else ApplyState.shortBreak } hw ha
  rw [runPhaseToCompletion, hstart, hm, ticks_succ', hrun, hcomp, hhandle]

/-! ### Closed form of the natural run -/

theorem afterN_zero (s0 : PState) : afterNWorkCompletions s0 0 = s0 := rfl

theorem afterN_step (s0 : PState) (n : Nat) :
    afterNWorkCompletions s0 (n + 1) =
      if (afterNWorkCompletions s0 n).isWorking = true then
        runPhaseToCompletion (afterNWorkCompletions s0 n)
      else
        runPhaseToCompletion (runPhaseToCompletion (afterNWorkCompletions s0 n)) := rfl

/-- State after `n ≥ 1` consecutive natural work-session completions from a
fresh manual-mode state: the closed form `afterShape`. -/
theorem afterN_closed (workMin breakMin longBreakMin cycle : Nat)
    (hwm : 0 < workMin) (hbm : 0 < breakMin) (hlm : 0 < longBreakMin) :
    ∀ n : Nat, 0 < n →
      afterNWorkCompletions (initState workMin breakMin longBreakMin cycle false false) n =
        afterShape workMin breakMin longBreakMin cycle n := by
  intro n hn
  induction n, hn using Nat.le_induction with
  | base =>
    rw [afterN_step, afterN_zero]
    rw [if_pos (show (initState workMin breakMin longBreakMin cycle false false).isWorking
      = true from rfl)]
    rw [runPhase_work (initState workMin breakMin longBreakMin cycle false false)
      rfl rfl rfl rfl (show 0 < workMin * 60 by omega)]
    by_cases hmod : 1 % cycle = 0 <;>
      simp [initState, afterShape, hmod]
  | succ n hn ih =>
    rw [afterN_step, ih]
    rw [if_neg (show ¬ (afterShape workMin breakMin longBreakMin cycle n).isWorking
      = true by simp [afterShape, initState])]
    rw [runPhase_break (afterShape workMin breakMin longBreakMin cycle n)
      rfl rfl rfl rfl
      (show 0 < (afterShape workMin breakMin longBreakMin cycle n).timeLeft by
        simp only [afterShape, initState]
        split <;> omega)]
    rw [runPhase_work
      { afterShape workMin breakMin longBreakMin cycle n with
        soundCount := (afterShape workMin breakMin longBreakMin cycle n).soundCount + 2
        completions := (afterShape workMin breakMin longBreakMin cycle n).completions + 1
        timerRunning := false
        isWorking := true
        timeLeft := (afterShape workMin breakMin longBreakMin cycle n).workTime
        appliedState := ApplyState.idle }
      rfl rfl rfl rfl
      (show 0 < (afterShape workMin breakMin longBreakMin cycle n).workTime by
        simp only [afterShape, initState]; omega)]
    by_cases hmod : (n + 1) % cycle = 0 <;>
      · simp [afterShape, initState, hmod]
        constructor <;> omega

/-! ### Flag preservation through the tick loop -/

/-- A scheduled `update_timer` invocation is a no-op unless running. -/
theorem update_noop (fuel : Nat) (s : PState) (h : s.timerRunning = false) :
    update_timer fuel s = s := by
  cases fuel with
  | zero => rw [update_timer]
  | succ fuel =>
    rw [update_timer]
    simp [h]

/-- Neither `update_timer` nor `_handle_timer_complete` ever touches
`paused`. -/
theorem paused_preserved (fuel : Nat) :
    (∀ s : PState, (update_timer fuel s).paused = s.paused) ∧
    (∀ s : PState, (handle_timer_complete fuel s).paused = s.paused) := by
  induction fuel with
  | zero =>
    refine ⟨fun s => by rw [update_timer], fun s => ?_⟩
    by_cases hw : s.isWorking = true
    · by_cases hmod : (s.pomodoroCount + 1) % s.pomodorosUntilLongBreak = 0 <;>
        by_cases hab : s.autoStartBreaks = true <;>
          simp [handle_timer_complete, update_timer, hw, hmod, hab]
    · by_cases haw : s.autoStartWork = true <;>
        simp [handle_timer_complete, update_timer, hw, haw]
  | succ fuel ih =>
    have hu : ∀ s : PState, (update_timer (fuel + 1) s).paused = s.paused := by
      intro s
      rw [update_timer]
      split_ifs <;> first
        | rfl
        | exact ih.2 s
    refine ⟨hu, fun s => ?_⟩
    by_cases hw : s.isWorking = true
    · by_cases hmod : (s.pomodoroCount + 1) % s.pomodorosUntilLongBreak = 0 <;>
        by_cases hab : s.autoStartBreaks = true <;>
          simp [handle_timer_complete, hw, hmod, hab, hu]
    · by_cases haw : s.autoStartWork = true <;>
        simp [handle_timer_complete, hw, haw, hu]

/-- A phase completion on a stopped timer leaves the timer stopped. -/
theorem handle_running_off (fuel : Nat) (s : PState) (h : s.timerRunning = false) :
    (handle_timer_complete fuel s).timerRunning = false := by
  by_cases hw : s.isWorking = true
  · by_cases hmod : (s.pomodoroCount + 1) % s.pomodorosUntilLongBreak = 0 <;>
      by_cases hab : s.autoStartBreaks = true <;>
        simp [handle_timer_complete, hw, hmod, hab, h, update_noop]
  · by_cases haw : s.autoStartWork = true <;>
      simp [handle_timer_complete, hw, haw, h, update_noop]

/-- A scheduled `update_timer` invocation cannot turn the timer on. -/
theorem update_running_imp (fuel : Nat) (s : PState)
    (h : (update_timer fuel s).timerRunning = true) : s.timerRunning = true := by
  by_cases hr : s.timerRunning = true
  · exact hr
  · rw [update_noop fuel s (by simpa using hr)] at h
    exact h

/-! ### Association-list lemmas for the statistics store -/

theorem dictGet_bump {α : Type} [DecidableEq α]
    (m : List (α × PeriodStat)) (key other : α) (workMinutes : Nat) :
    dictGet (bumpEntry m key workMinutes) other ⟨0, 0⟩ =
      if other = key then
        ⟨(dictGet m key ⟨0, 0⟩).pomodoros + 1, (dictGet m key ⟨0, 0⟩).minutes + workMinutes⟩
      else dictGet m other ⟨0, 0⟩ := by
  induction m with
  | nil =>
    by_cases h : other = key
    · simp [bumpEntry, dictGet, h]
    · simp [bumpEntry, dictGet, h, Ne.symm h]
  | cons kv rest ih =>
    obtain ⟨k, v⟩ := kv
    by_cases hk : k = key
    · by_cases ho : other = key
      · simp [bumpEntry, dictGet, hk, ho]
      · simp [bumpEntry, dictGet, hk, ho, Ne.symm ho]
    · by_cases ho : other = key
      · subst ho
        simp [bumpEntry, dictGet, hk, Ne.symm hk, ih]
      · by_cases hko : k = other <;>
          simp [bumpEntry, dictGet, hk, hko, ho, ih]

theorem sumPomodoros_bump {α : Type} [DecidableEq α]
    (m : List (α × PeriodStat)) (key : α) (workMinutes : Nat) :
    sumPomodoros (bumpEntry m key workMinutes) = sumPomodoros m + 1 := by
  induction m with
  | nil => simp [bumpEntry, sumPomodoros]
  | cons kv rest ih =>
    obtain ⟨k, v⟩ := kv
    by_cases hk : k = key <;>
      simp [bumpEntry, sumPomodoros, hk] <;>
      simp [sumPomodoros] at ih <;> omega

theorem dictGet_absent {α : Type} [DecidableEq α]
    (m : List (α × PeriodStat)) (key : α) (dflt : PeriodStat)
    (h : hasEntry m key = false) :
    dictGet m key dflt = dflt := by
  induction m with
  | nil => simp [dictGet]
  | cons kv rest ih =>
    obtain ⟨k, v⟩ := kv
    by_cases hk : k = key
    · simp [hasEntry, hk] at h
    · simp [hasEntry, hk] at h
      simp [dictGet, hk, ih h]

/-! ### Counting through a work-phase countdown -/

/-- Variant of `ticks_work_run` that needs no visual-shape hypothesis, for
at least one tick. -/
theorem ticks_fresh_work (s : PState) (hr : s.timerRunning = true)
    (hw : s.isWorking = true) :
    ∀ k, 1 ≤ k → k ≤ s.timeLeft →
      ticks k s =
        { s with
          timeLeft := s.timeLeft - k
          appliedState :=
            if 10 * (s.timeLeft - k) ≤ s.workTime then ApplyState.warning
            else ApplyState.focus } := by
  intro k hk1 hk
  obtain ⟨j, rfl⟩ : ∃ j, k = j + 1 := ⟨k - 1, by omega⟩
  have hstep : tick s =
      { s with
        timeLeft := s.timeLeft - 1
        appliedState :=
          if 10 * (s.timeLeft - 1) ≤ s.workTime then ApplyState.warning
          else ApplyState.focus } := by
    rw [tick_decrement s hr (by omega)]
    rw [hw]
    simp
  rw [ticks_succ, hstep]
  rw [ticks_work_run j
    { s with
      timeLeft := s.timeLeft - 1
      appliedState :=
        if 10 * (s.timeLeft - 1) ≤ s.workTime then ApplyState.warning
        else ApplyState.focus }
    hr hw rfl (by simp; omega)]
  have harith : s.timeLeft - 1 - j = s.timeLeft - (j + 1) := by omega
  simp [harith]

/-- From a running work phase with a zeroed completion counter, the first
`timeLeft` ticks complete nothing, and the `(timeLeft + 1)`-th tick fires
exactly one completion and counts exactly one pomodoro. -/
theorem run_work_phase_counts (s : PState) (hr : s.timerRunning = true)
    (hw : s.isWorking = true) (hb : s.autoStartBreaks = false)
    (hc : s.completions = 0) (hpc : s.pomodoroCount = 0)
    (ht : 1 ≤ s.timeLeft) :
    (∀ k, k ≤ s.timeLeft →
      (ticks k s).timeLeft = s.timeLeft - k ∧ (ticks k s).completions = 0) ∧
    (ticks (s.timeLeft + 1) s).completions = 1 ∧
    (ticks (s.timeLeft + 1) s).pomodoroCount = 1 := by
  have hrun : ticks s.timeLeft s =
      { s with timeLeft := 0, appliedState := ApplyState.warning } := by
    rw [ticks_fresh_work s hr hw s.timeLeft ht (Nat.le_refl _)]
    simp
  refine ⟨?_, ?_, ?_⟩
  · intro k hk
    cases k with
    | zero => exact ⟨by simp [ticks_zero], by simp [ticks_zero, hc]⟩
    | succ j =>
      rw [ticks_fresh_work s hr hw (j + 1) (by omega) hk]
      exact ⟨by simp, by simp [hc]⟩
  all_goals
    rw [ticks_succ', hrun,
      tick_complete { s with timeLeft := 0, appliedState := ApplyState.warning } hr rfl,
      handle_work_noauto 0
        { s with timeLeft := 0, appliedState := ApplyState.warning } hw hb]
  all_goals split <;> simp [hc, hpc]

/-! ### Invariant preservation helpers -/

theorem inv_update (fuel : Nat) (s : PState) (hs : Inv s) :
    Inv (update_timer fuel s) := by
  by_cases hp : s.paused = true
  · have hr : s.timerRunning = false := by
      cases hrb : s.timerRunning
      · rfl
      · exact absurd ⟨hrb, hp⟩ hs
    rw [update_noop fuel s hr]
    exact hs
  · have hp' : s.paused = false := by simpa using hp
    simp [Inv, (paused_preserved fuel).1 s, hp']

theorem inv_handle (fuel : Nat) (s : PState) (hs : Inv s) :
    Inv (handle_timer_complete fuel s) := by
  by_cases hp : s.paused = true
  · have hr : s.timerRunning = false := by
      cases hrb : s.timerRunning
      · rfl
      · exact absurd ⟨hrb, hp⟩ hs
    simp [Inv, handle_running_off fuel s hr]
  · have hp' : s.paused = false := by simpa using hp
    simp [Inv, (paused_preserved fuel).2 s, hp']

theorem inv_start (fuel : Nat) (s : PState) (hs : Inv s) :
    Inv (start_timer fuel s) := by
  by_cases hr : s.timerRunning = true
  · simpa [start_timer, hr] using hs
  · have hpause : (start_timer fuel s).paused = false := by
      by_cases hp : s.paused = true <;>
        simp [start_timer, hr, hp, (paused_preserved fuel).1, apply_ite PState.paused]
    simp [Inv, hpause]

theorem inv_pause (fuel : Nat) (s : PState) (hs : Inv s) :
    Inv (pause_timer fuel s) := by
  by_cases hr : s.timerRunning = true
  · simp [pause_timer, hr, Inv]
  · by_cases hp : s.paused = true
    · have := inv_start fuel s hs
      simpa [pause_timer, hr, hp] using this
    · simpa [pause_timer, hr, hp] using hs

theorem inv_reset (s : PState) : Inv (reset_timer s) := by
  simp [Inv, reset_timer]

theorem inv_skip (s : PState) (hs : Inv s) : Inv (skip_phase s) := by
  by_cases hcond : s.timerRunning = false ∧ s.paused = false
  · simpa [skip_phase, hcond] using hs
  · by_cases hw : s.isWorking = true <;>
      by_cases hmod : s.pomodoroCount % s.pomodorosUntilLongBreak =
        s.pomodorosUntilLongBreak - 1 <;>
      simp [skip_phase, hcond, hw, hmod, Inv]

theorem inv_reset_session (s : PState) : Inv (reset_session s) := by
  simp [Inv, reset_session, reset_timer]

theorem inv_update_times (s : PState) (wE bE lE pE : Option Int) (hs : Inv s) :
    Inv (update_times s wE bE lE pE) := by
  by_cases hrun : s.timerRunning = true ∨ s.paused = true
  · simpa [update_times, hrun] using hs
  · have hframe : Inv { s with validationErrors := s.validationErrors + 1 } := by
      simpa [Inv] using hs
    rcases wE with _ | w <;> rcases bE with _ | b <;>
      rcases lE with _ | l <;> rcases pE with _ | p <;>
      simp only [update_times, if_neg hrun]
    all_goals try exact hframe
    split_ifs <;> first
      | exact hframe
      | exact inv_reset _

/-! ### Claims -/

/-- C1: for every cycle length `c` in 1..10 and every `n ≥ 1`, after `n`
consecutive natural work-session completions the phase selected on the
`n`-th completion is the long break exactly when `n % c = 0` — the modulo
test runs on `completedWorkSessions` strictly after its increment, so on
the `n`-th completion the counter reads exactly `n` — otherwise the short
break is selected, and `remainingSeconds` is set to the selected break's
configured duration. -/
theorem c1_long_break_iff (workMin breakMin longBreakMin c n : Nat)
    (hc1 : 1 ≤ c) (hc2 : c ≤ 10) (hn : 1 ≤ n)
    (hwm : 1 ≤ workMin) (hbm : 1 ≤ breakMin) (hlm : 1 ≤ longBreakMin) :
    (afterNWorkCompletions (initState workMin breakMin longBreakMin c false false)
        n).pomodoroCount = n ∧
    ((afterNWorkCompletions (initState workMin breakMin longBreakMin c false false)
        n).appliedState = ApplyState.longBreak ↔ n % c = 0) ∧
    ((afterNWorkCompletions (initState workMin breakMin longBreakMin c false false)
        n).appliedState = ApplyState.shortBreak ↔ ¬ n % c = 0) ∧
    (afterNWorkCompletions (initState workMin breakMin longBreakMin c false false)
        n).timeLeft =
      (if n % c = 0 then longBreakMin * 60 else breakMin * 60) := by
  rw [afterN_closed workMin breakMin longBreakMin c hwm hbm hlm n hn]
  by_cases hmod : n % c = 0 <;> simp [afterShape, initState, hmod]

/-- Witness for C1 at the spec example: 25/5/15-minute durations, cycle
length 4; the fourth completion selects the long break. -/
theorem c1_witness :
    (afterNWorkCompletions (initState 25 5 15 4 false false) 4).pomodoroCount = 4 ∧
    ((afterNWorkCompletions (initState 25 5 15 4 false false) 4).appliedState
        = ApplyState.longBreak ↔ 4 % 4 = 0) ∧
    ((afterNWorkCompletions (initState 25 5 15 4 false false) 4).appliedState
        = ApplyState.shortBreak ↔ ¬ 4 % 4 = 0) ∧
    (afterNWorkCompletions (initState 25 5 15 4 false false) 4).timeLeft =
      (if 4 % 4 = 0 then 15 * 60 else 5 * 60) :=
  c1_long_break_iff 25 5 15 4 4 (by decide) (by decide) (by decide)
    (by decide) (by decide) (by decide)

/-- C3: skipping during a work phase (running or paused) moves to a break
phase but leaves `completedWorkSessions` and the session total unchanged
and never invokes `record_pomodoro`. -/
theorem c3_skip_work_frame (s : PState)
    (h : s.timerRunning = true ∨ s.paused = true) (hw : s.isWorking = true) :
    (skip_phase s).isWorking = false ∧
    (skip_phase s).pomodoroCount = s.pomodoroCount ∧
    (skip_phase s).totalSessionPomodoros = s.totalSessionPomodoros ∧
    (skip_phase s).recordCount = s.recordCount ∧
    ((skip_phase s).timeLeft = s.longBreakTime ∧
        (skip_phase s).appliedState = ApplyState.longBreak ∨
      (skip_phase s).timeLeft = s.breakTime ∧
        (skip_phase s).appliedState = ApplyState.shortBreak) := by
  have hcond : ¬ (s.timerRunning = false ∧ s.paused = false) := by
    rcases h with h | h <;> simp [h]
  by_cases hmod : s.pomodoroCount % s.pomodorosUntilLongBreak =
      s.pomodorosUntilLongBreak - 1 <;>
    simp [skip_phase, hcond, hw, hmod]

/-- Witness for C3: skipping a running fresh work session. -/
theorem c3_witness :
    (skip_phase { initState 25 5 15 4 false false with timerRunning := true }).isWorking
        = false ∧
    (skip_phase { initState 25 5 15 4 false false with
        timerRunning := true }).pomodoroCount =
      { initState 25 5 15 4 false false with timerRunning := true }.pomodoroCount ∧
    (skip_phase { initState 25 5 15 4 false false with
        timerRunning := true }).totalSessionPomodoros =
      { initState 25 5 15 4 false false with
        timerRunning := true }.totalSessionPomodoros ∧
    (skip_phase { initState 25 5 15 4 false false with
        timerRunning := true }).recordCount =
      { initState 25 5 15 4 false false with timerRunning := true }.recordCount ∧
    ((skip_phase { initState 25 5 15 4 false false with
          timerRunning := true }).timeLeft =
        { initState 25 5 15 4 false false with timerRunning := true }.longBreakTime ∧
      (skip_phase { initState 25 5 15 4 false false with
          timerRunning := true }).appliedState = ApplyState.longBreak ∨
      (skip_phase { initState 25 5 15 4 false false with
          timerRunning := true }).timeLeft =
        { initState 25 5 15 4 false false with timerRunning := true }.breakTime ∧
      (skip_phase { initState 25 5 15 4 false false with
          timerRunning := true }).appliedState = ApplyState.shortBreak) :=
  c3_skip_work_frame { initState 25 5 15 4 false false with timerRunning := true }
    (Or.inl rfl) rfl

/-- C5: `running` and `paused` are never both true — the invariant holds at
startup and is preserved by every operation (tick, phase completion, start,
pause/resume, reset, skip, session reset, settings update), hence on every
reachable state. -/
theorem c5_mutual_exclusion :
    (∀ workMin breakMin longBreakMin cycle ab aw,
      Inv (initState workMin breakMin longBreakMin cycle ab aw)) ∧
    (∀ fuel s, Inv s → Inv (update_timer fuel s)) ∧
    (∀ fuel s, Inv s → Inv (handle_timer_complete fuel s)) ∧
    (∀ fuel s, Inv s → Inv (start_timer fuel s)) ∧
    (∀ fuel s, Inv s → Inv (pause_timer fuel s)) ∧
    (∀ s, Inv s → Inv (reset_timer s)) ∧
    (∀ s, Inv s → Inv (skip_phase s)) ∧
    (∀ s, Inv s → Inv (reset_session s)) ∧
    (∀ s wE bE lE pE, Inv s → Inv (update_times s wE bE lE pE)) :=
  ⟨fun _ _ _ _ _ _ => by simp [Inv, initState],
    inv_update, inv_handle, inv_start, inv_pause,
    fun s _ => inv_reset s, inv_skip, fun s _ => inv_reset_session s,
    inv_update_times⟩

/-- Witness for C5: pausing a started fresh timer keeps the exclusion. -/
theorem c5_witness :
    Inv (pause_timer 1 { initState 25 5 15 4 false false with timerRunning := true }) :=
  c5_mutual_exclusion.2.2.2.2.1 1
    { initState 25 5 15 4 false false with timerRunning := true } (by decide)

/-- C8: while running or paused the settings update is a no-op — the whole
state, configuration and timer fields alike, is returned unchanged. -/
theorem c8_no_reconfigure_live (s : PState) (wE bE lE pE : Option Int)
    (h : s.timerRunning = true ∨ s.paused = true) :
    update_times s wE bE lE pE = s := by
  simp [update_times, h]

/-- Witness for C8: a running timer ignores a settings update. -/
theorem c8_witness :
    update_times { initState 25 5 15 4 false false with timerRunning := true }
      (some 30) (some 10) (some 20) (some 2) =
      { initState 25 5 15 4 false false with timerRunning := true } :=
  c8_no_reconfigure_live _ (some 30) (some 10) (some 20) (some 2) (Or.inl rfl)

/-- Counterexample to C2 as stated: with a one-minute work duration, the
60 `tick()` calls from the fresh running work phase drive
`remainingSeconds` to 0 but fire no phase completion at all — the
completion count after them is 0, not 1; the single completion only fires
on the 61st call. -/
theorem c2_counterexample :
    (ticks 60 { initState 1 1 1 4 false false with
      timerRunning := true }).timeLeft = 0 ∧
    ¬ (ticks 60 { initState 1 1 1 4 false false with
      timerRunning := true }).completions = 1 ∧
    (ticks 61 { initState 1 1 1 4 false false with
      timerRunning := true }).completions = 1 := by
  obtain ⟨h1, h2, h3⟩ := run_work_phase_counts
    { initState 1 1 1 4 false false with timerRunning := true }
    rfl rfl rfl rfl rfl (by decide)
  obtain ⟨h60t, h60c⟩ := h1 60 (by decide)
  refine ⟨?_, ?_, ?_⟩
  · rw [h60t]
    decide
  · rw [h60c]
    decide
  · exact h2

/-- C2 (amended): starting from a fresh Work phase with
`remainingSeconds = workSeconds ≥ 60` and `running = true`, each of the
first `workSeconds` `tick()` calls decrements `remainingSeconds` by one —
it reaches 0 after exactly `workSeconds` calls and never goes negative —
and no phase completion fires during those calls; the completion fires
exactly once, on the `(workSeconds + 1)`-th call, which is also the call
that increments `completedWorkSessions` to 1. -/
theorem c2_single_completion (workMin breakMin longBreakMin c : Nat)
    (hwm : 1 ≤ workMin) :
    (∀ k, k ≤ workMin * 60 →
      (ticks k { initState workMin breakMin longBreakMin c false false with
        timerRunning := true }).timeLeft = workMin * 60 - k ∧
      (ticks k { initState workMin breakMin longBreakMin c false false with
        timerRunning := true }).completions = 0) ∧
    (ticks (workMin * 60 + 1)
      { initState workMin breakMin longBreakMin c false false with
        timerRunning := true }).completions = 1 ∧
    (ticks (workMin * 60 + 1)
      { initState workMin breakMin longBreakMin c false false with
        timerRunning := true }).pomodoroCount = 1 :=
  run_work_phase_counts
    { initState workMin breakMin longBreakMin c false false with
      timerRunning := true }
    rfl rfl rfl rfl rfl (by simp [initState]; omega)

/-- Witness for C2 (amended) at a one-minute work duration. -/
theorem c2_witness :
    ((ticks 60 { initState 1 2 3 4 false false with
        timerRunning := true }).timeLeft = 1 * 60 - 60 ∧
      (ticks 60 { initState 1 2 3 4 false false with
        timerRunning := true }).completions = 0) ∧
    (ticks (1 * 60 + 1) { initState 1 2 3 4 false false with
      timerRunning := true }).completions = 1 :=
  ⟨(c2_single_completion 1 2 3 4 (by decide)).1 60 (by decide),
    (c2_single_completion 1 2 3 4 (by decide)).2.1⟩

/-- Counterexample to C4 as stated: start the 25-minute fresh timer (the
synchronous first countdown step leaves 1499 seconds), pause at 1499, then
resume — the resumed state has 1498 seconds, not the 1499 held at the
moment of pausing, because `start_timer` runs `update_timer` synchronously. -/
theorem c4_counterexample :
    (pause_timer 1 (start_timer 1 (initState 25 5 15 4 false false))).timeLeft
        = 1499 ∧
    (pause_timer 1 (pause_timer 1
        (start_timer 1 (initState 25 5 15 4 false false)))).timerRunning = true ∧
    (pause_timer 1 (pause_timer 1
        (start_timer 1 (initState 25 5 15 4 false false)))).paused = false ∧
    (pause_timer 1 (pause_timer 1
        (start_timer 1 (initState 25 5 15 4 false false)))).timeLeft = 1498 ∧
    ¬ (pause_timer 1 (pause_timer 1
          (start_timer 1 (initState 25 5 15 4 false false)))).timeLeft =
        (pause_timer 1 (start_timer 1 (initState 25 5 15 4 false false))).timeLeft := by
  have hstart : start_timer 1 (initState 25 5 15 4 false false) =
      { initState 25 5 15 4 false false with
        soundCount := 1
        timerRunning := true
        timeLeft := 1499
        appliedState := ApplyState.focus } := by
    rw [start_idle_work (initState 25 5 15 4 false false) rfl rfl rfl (by decide)]
    decide
  have hpause : pause_timer 1
      { initState 25 5 15 4 false false with
        soundCount := 1
        timerRunning := true
        timeLeft := 1499
        appliedState := ApplyState.focus } =
      { initState 25 5 15 4 false false with
        soundCount := 1
        timerRunning := false
        paused := true
        timeLeft := 1499
        appliedState := ApplyState.focus } := by
    rw [pause_timer]
    decide
  have hresume : pause_timer 1
      { initState 25 5 15 4 false false with
        soundCount := 1
        timerRunning := false
        paused := true
        timeLeft := 1499
        appliedState := ApplyState.focus } =
      { initState 25 5 15 4 false false with
        soundCount := 1
        timerRunning := true
        paused := false
        timeLeft := 1498
        appliedState := ApplyState.focus } := by
    rw [pause_timer]
    simp only [start_timer]
    rw [update_timer]
    decide
  rw [hstart, hpause, hresume]
  decide

/-- C4 (amended): from any running state with at least one second left,
`pause()` keeps `remainingSeconds` at its current value, and the subsequent
`resume()` (the pause toggle while paused) yields `running = true`,
`paused = false` without re-firing the start cue; `remainingSeconds` is not
reset to the full phase duration, but it is one less than its value at the
moment of pausing, because the resume performs the first countdown step of
the resumed phase synchronously. -/
theorem c4_pause_resume (fuel : Nat) (s : PState) (hf : 1 ≤ fuel)
    (hr : s.timerRunning = true) (ht : 1 ≤ s.timeLeft) :
    (pause_timer fuel s).timeLeft = s.timeLeft ∧
    (pause_timer fuel s).paused = true ∧
    (pause_timer fuel s).timerRunning = false ∧
    (pause_timer fuel (pause_timer fuel s)).timerRunning = true ∧
    (pause_timer fuel (pause_timer fuel s)).paused = false ∧
    (pause_timer fuel (pause_timer fuel s)).timeLeft + 1 = s.timeLeft ∧
    (pause_timer fuel (pause_timer fuel s)).soundCount = s.soundCount := by
  have ht' : 0 < s.timeLeft := ht
  obtain ⟨g, rfl⟩ : ∃ g, fuel = g + 1 := ⟨fuel - 1, by omega⟩
  refine ⟨?_, ?_, ?_, ?_, ?_, ?_, ?_⟩ <;>
    by_cases hw : s.isWorking = true <;>
      by_cases hL : s.timeLeft = s.longBreakTime <;>
        first
          | (simp [pause_timer, start_timer, update_timer, hr, ht', hw, hL] <;>
              omega)
          | (have ht2 : 0 < s.longBreakTime := hL ▸ ht'
             simp [pause_timer, start_timer, update_timer, hr, ht', ht2, hw, hL] <;>
               omega)

/-- Witness for C4 (amended) on the started fresh 25-minute timer. -/
theorem c4_witness :
    (pause_timer 1 { initState 25 5 15 4 false false with
        timerRunning := true, timeLeft := 900 }).timeLeft =
      ({ initState 25 5 15 4 false false with
        timerRunning := true, timeLeft := 900 } : PState).timeLeft ∧
    (pause_timer 1 { initState 25 5 15 4 false false with
        timerRunning := true, timeLeft := 900 }).paused = true ∧
    (pause_timer 1 { initState 25 5 15 4 false false with
        timerRunning := true, timeLeft := 900 }).timerRunning = false ∧
    (pause_timer 1 (pause_timer 1 { initState 25 5 15 4 false false with
        timerRunning := true, timeLeft := 900 })).timerRunning = true ∧
    (pause_timer 1 (pause_timer 1 { initState 25 5 15 4 false false with
        timerRunning := true, timeLeft := 900 })).paused = false ∧
    (pause_timer 1 (pause_timer 1 { initState 25 5 15 4 false false with
        timerRunning := true, timeLeft := 900 })).timeLeft + 1 =
      ({ initState 25 5 15 4 false false with
        timerRunning := true, timeLeft := 900 } : PState).timeLeft ∧
    (pause_timer 1 (pause_timer 1 { initState 25 5 15 4 false false with
        timerRunning := true, timeLeft := 900 })).soundCount =
      ({ initState 25 5 15 4 false false with
        timerRunning := true, timeLeft := 900 } : PState).soundCount :=
  c4_pause_resume 1
    { initState 25 5 15 4 false false with timerRunning := true, timeLeft := 900 }
    (by decide) rfl (by decide)

/-! ### Projections of one `record_pomodoro` call -/

theorem record_last_date (stats : Stats) (today : Int) (weekKey : String)
    (workMinutes : Nat) :
    (record_pomodoro (StoreContent.valid stats) today weekKey
      workMinutes).last_pomodoro_date = some today := by
  rcases hlast : stats.last_pomodoro_date with _ | d
  · simp [record_pomodoro, load_statistics, hlast]
  · by_cases h1 : today - d = 1 <;> by_cases h2 : 1 < today - d <;>
      simp [record_pomodoro, load_statistics, hlast, h1, h2]

theorem record_total (stats : Stats) (today : Int) (weekKey : String)
    (workMinutes : Nat) :
    (record_pomodoro (StoreContent.valid stats) today weekKey
      workMinutes).total_pomodoros = stats.total_pomodoros + 1 := by
  rcases hlast : stats.last_pomodoro_date with _ | d
  · simp [record_pomodoro, load_statistics, hlast]
  · by_cases h1 : today - d = 1 <;> by_cases h2 : 1 < today - d <;>
      simp [record_pomodoro, load_statistics, hlast, h1, h2]

theorem record_minutes (stats : Stats) (today : Int) (weekKey : String)
    (workMinutes : Nat) :
    (record_pomodoro (StoreContent.valid stats) today weekKey
      workMinutes).total_work_minutes = stats.total_work_minutes + workMinutes := by
  rcases hlast : stats.last_pomodoro_date with _ | d
  · simp [record_pomodoro, load_statistics, hlast]
  · by_cases h1 : today - d = 1 <;> by_cases h2 : 1 < today - d <;>
      simp [record_pomodoro, load_statistics, hlast, h1, h2]

theorem record_daily (stats : Stats) (today : Int) (weekKey : String)
    (workMinutes : Nat) :
    (record_pomodoro (StoreContent.valid stats) today weekKey
      workMinutes).daily_stats = bumpEntry stats.daily_stats today workMinutes := by
  rcases hlast : stats.last_pomodoro_date with _ | d
  · simp [record_pomodoro, load_statistics, hlast]
  · by_cases h1 : today - d = 1 <;> by_cases h2 : 1 < today - d <;>
      simp [record_pomodoro, load_statistics, hlast, h1, h2]

theorem record_weekly (stats : Stats) (today : Int) (weekKey : String)
    (workMinutes : Nat) :
    (record_pomodoro (StoreContent.valid stats) today weekKey
      workMinutes).weekly_stats = bumpEntry stats.weekly_stats weekKey workMinutes := by
  rcases hlast : stats.last_pomodoro_date with _ | d
  · simp [record_pomodoro, load_statistics, hlast]
  · by_cases h1 : today - d = 1 <;> by_cases h2 : 1 < today - d <;>
      simp [record_pomodoro, load_statistics, hlast, h1, h2]

/-- C6: streak rules of the record operation — no stored date gives streak
1; a same-day (or clock-regressed) repeat leaves the streak unchanged; a
one-day gap increments it; a larger gap resets it to 1; `totalPomodoros`
grows by one on every call, so recording twice on the same day leaves the
streak unchanged after the second call while the total grows by 2. -/
theorem c6_streak_rules (stats : Stats) (today : Int) (weekKey : String)
    (workMinutes : Nat) :
    (stats.last_pomodoro_date = none →
      (record_pomodoro (StoreContent.valid stats) today weekKey
        workMinutes).streak_days = 1) ∧
    (∀ d, stats.last_pomodoro_date = some d → today - d ≤ 0 →
      (record_pomodoro (StoreContent.valid stats) today weekKey
        workMinutes).streak_days = stats.streak_days) ∧
    (∀ d, stats.last_pomodoro_date = some d → today - d = 1 →
      (record_pomodoro (StoreContent.valid stats) today weekKey
        workMinutes).streak_days = stats.streak_days + 1) ∧
    (∀ d, stats.last_pomodoro_date = some d → 1 < today - d →
      (record_pomodoro (StoreContent.valid stats) today weekKey
        workMinutes).streak_days = 1) ∧
    (record_pomodoro (StoreContent.valid stats) today weekKey
      workMinutes).total_pomodoros = stats.total_pomodoros + 1 ∧
    (record_pomodoro
      (StoreContent.valid (record_pomodoro (StoreContent.valid stats) today
        weekKey workMinutes)) today weekKey workMinutes).streak_days =
      (record_pomodoro (StoreContent.valid stats) today weekKey
        workMinutes).streak_days ∧
    (record_pomodoro
      (StoreContent.valid (record_pomodoro (StoreContent.valid stats) today
        weekKey workMinutes)) today weekKey workMinutes).total_pomodoros =
      stats.total_pomodoros + 2 := by
  refine ⟨?_, ?_, ?_, ?_, record_total stats today weekKey workMinutes, ?_, ?_⟩
  · intro h
    simp [record_pomodoro, load_statistics, h]
  · intro d hd hgap
    have h1 : ¬ (today - d = 1) := by omega
    have h2 : ¬ (1 < today - d) := by omega
    simp [record_pomodoro, load_statistics, hd, h1, h2]
  · intro d hd hgap
    simp [record_pomodoro, load_statistics, hd, hgap]
  · intro d hd hgap
    have h1 : ¬ (today - d = 1) := by omega
    simp [record_pomodoro, load_statistics, hd, h1, hgap]
  · have hlast := record_last_date stats today weekKey workMinutes
    have h1 : ¬ ((today : Int) - today = 1) := by omega
    have h2 : ¬ (1 < (today : Int) - today) := by omega
    simp [record_pomodoro, load_statistics, hlast, h1, h2]
  · rw [record_total, record_total]

/-- Witness for C6: recording on day 100, then again on day 100, from an
empty store. -/
theorem c6_witness :
    (default_statistics.last_pomodoro_date = none →
      (record_pomodoro (StoreContent.valid default_statistics) 100 "2026-W15"
        25).streak_days = 1) ∧
    (record_pomodoro (StoreContent.valid default_statistics) 100 "2026-W15"
      25).total_pomodoros = default_statistics.total_pomodoros + 1 ∧
    (record_pomodoro
      (StoreContent.valid (record_pomodoro
        (StoreContent.valid default_statistics) 100 "2026-W15" 25)) 100
        "2026-W15" 25).streak_days =
      (record_pomodoro (StoreContent.valid default_statistics) 100 "2026-W15"
        25).streak_days ∧
    (record_pomodoro
      (StoreContent.valid (record_pomodoro
        (StoreContent.valid default_statistics) 100 "2026-W15" 25)) 100
        "2026-W15" 25).total_pomodoros =
      default_statistics.total_pomodoros + 2 :=
  ⟨(c6_streak_rules default_statistics 100 "2026-W15" 25).1,
    (c6_streak_rules default_statistics 100 "2026-W15" 25).2.2.2.2.1,
    (c6_streak_rules default_statistics 100 "2026-W15" 25).2.2.2.2.2.1,
    (c6_streak_rules default_statistics 100 "2026-W15" 25).2.2.2.2.2.2⟩

/-- C7: an invalid settings update — any entry failing to parse, or any
value out of range (durations 1..1440 minutes, cycle length 1..10) — is
rejected with a validation error and changes nothing else: the entire
prior configuration and timer state are retained (all-or-nothing). -/
theorem c7_atomic_validation (s : PState) (wE bE lE pE : Option Int)
    (hr : s.timerRunning = false) (hp : s.paused = false)
    (hinvalid : (entryOk wE 1 1440 && entryOk bE 1 1440 &&
      entryOk lE 1 1440 && entryOk pE 1 10) = false) :
    update_times s wE bE lE pE =
      { s with validationErrors := s.validationErrors + 1 } := by
  have hcond : ¬ (s.timerRunning = true ∨ s.paused = true) := by simp [hr, hp]
  rcases wE with _ | w <;> rcases bE with _ | b <;>
    rcases lE with _ | l <;> rcases pE with _ | p <;>
    simp only [update_times, if_neg hcond]
  simp only [entryOk, Bool.and_eq_false_iff, decide_eq_false_iff_not] at hinvalid
  split_ifs with h1 h2 h3 h4 <;>
    first
      | rfl
      | (exfalso; omega)

/-- Witness for C7 at the spec example: `workMinutes = 0` is rejected and
the configuration (hence `workSeconds`) is unchanged. -/
theorem c7_witness :
    update_times (initState 25 5 15 4 false false)
      (some 0) (some 5) (some 15) (some 4) =
      { initState 25 5 15 4 false false with
        validationErrors := (initState 25 5 15 4 false false).validationErrors + 1 } :=
  c7_atomic_validation (initState 25 5 15 4 false false)
    (some 0) (some 5) (some 15) (some 4) rfl rfl (by decide)

/-- C9: loading from a missing or corrupt store yields the zeroed default
structure — it never fails — and the today/week/total reads return zeroed
defaults for periods with no recorded activity. -/
theorem c9_load_fails_soft :
    load_statistics StoreContent.missing = default_statistics ∧
    load_statistics StoreContent.corrupt = default_statistics ∧
    default_statistics.total_pomodoros = 0 ∧
    default_statistics.total_work_minutes = 0 ∧
    default_statistics.daily_stats = [] ∧
    default_statistics.weekly_stats = [] ∧
    default_statistics.streak_days = 0 ∧
    default_statistics.last_pomodoro_date = none ∧
    (∀ store today, hasEntry (load_statistics store).daily_stats today = false →
      get_today_stats store today = ⟨0, 0⟩) ∧
    (∀ store weekKey,
      hasEntry (load_statistics store).weekly_stats weekKey = false →
      get_week_stats store weekKey = ⟨0, 0⟩) ∧
    get_total_stats StoreContent.missing = (0, 0, 0) := by
  refine ⟨rfl, rfl, rfl, rfl, rfl, rfl, rfl, rfl, ?_, ?_, rfl⟩
  · intro store today h
    exact dictGet_absent _ _ _ h
  · intro store weekKey h
    exact dictGet_absent _ _ _ h

/-- Witness for C9: reads from a missing store return zeroed defaults. -/
theorem c9_witness :
    get_today_stats StoreContent.missing 100 = ⟨0, 0⟩ ∧
    get_week_stats StoreContent.missing "2026-W15" = ⟨0, 0⟩ :=
  ⟨(c9_load_fails_soft).2.2.2.2.2.2.2.2.1 StoreContent.missing 100 rfl,
    (c9_load_fails_soft).2.2.2.2.2.2.2.2.2.1 StoreContent.missing "2026-W15" rfl⟩

/-- C10: the record operation preserves the invariant that
`totalPomodoros` equals the sum over all dates of the daily pomodoro
counts; it adds exactly one to the total and to today's daily count, adds
the duration to the total minutes, and never decrements any daily or
weekly counter. -/
theorem c10_invariant_preserved (stats : Stats) (today : Int)
    (weekKey : String) (workMinutes : Nat) (hwm : 1 ≤ workMinutes)
    (hinv : stats.total_pomodoros = sumPomodoros stats.daily_stats) :
    (record_pomodoro (StoreContent.valid stats) today weekKey
      workMinutes).total_pomodoros =
      sumPomodoros (record_pomodoro (StoreContent.valid stats) today weekKey
        workMinutes).daily_stats ∧
    (record_pomodoro (StoreContent.valid stats) today weekKey
      workMinutes).total_pomodoros = stats.total_pomodoros + 1 ∧
    (record_pomodoro (StoreContent.valid stats) today weekKey
      workMinutes).total_work_minutes = stats.total_work_minutes + workMinutes ∧
    (dictGet (record_pomodoro (StoreContent.valid stats) today weekKey
        workMinutes).daily_stats today ⟨0, 0⟩).pomodoros =
      (dictGet stats.daily_stats today ⟨0, 0⟩).pomodoros + 1 ∧
    (∀ k, (dictGet stats.daily_stats k ⟨0, 0⟩).pomodoros ≤
      (dictGet (record_pomodoro (StoreContent.valid stats) today weekKey
        workMinutes).daily_stats k ⟨0, 0⟩).pomodoros) ∧
    (∀ k, (dictGet stats.daily_stats k ⟨0, 0⟩).minutes ≤
      (dictGet (record_pomodoro (StoreContent.valid stats) today weekKey
        workMinutes).daily_stats k ⟨0, 0⟩).minutes) ∧
    (∀ k, (dictGet stats.weekly_stats k ⟨0, 0⟩).pomodoros ≤
      (dictGet (record_pomodoro (StoreContent.valid stats) today weekKey
        workMinutes).weekly_stats k ⟨0, 0⟩).pomodoros) ∧
    (∀ k, (dictGet stats.weekly_stats k ⟨0, 0⟩).minutes ≤
      (dictGet (record_pomodoro (StoreContent.valid stats) today weekKey
        workMinutes).weekly_stats k ⟨0, 0⟩).minutes) := by
  refine ⟨?_, record_total stats today weekKey workMinutes,
    record_minutes stats today weekKey workMinutes, ?_, ?_, ?_, ?_, ?_⟩
  · rw [record_total, record_daily, sumPomodoros_bump, hinv]
  · rw [record_daily, dictGet_bump]
    simp
  · intro k
    rw [record_daily, dictGet_bump]
    by_cases hk : k = today <;> simp [hk]
  · intro k
    rw [record_daily, dictGet_bump]
    by_cases hk : k = today <;> simp [hk]
  · intro k
    rw [record_weekly, dictGet_bump]
    by_cases hk : k = weekKey <;> simp [hk]
  · intro k
    rw [record_weekly, dictGet_bump]
    by_cases hk : k = weekKey <;> simp [hk]

/-- Witness for C10 on an empty store on day 100. -/
theorem c10_witness :
    (record_pomodoro (StoreContent.valid default_statistics) 100 "2026-W15"
      25).total_pomodoros =
      sumPomodoros (record_pomodoro (StoreContent.valid default_statistics)
        100 "2026-W15" 25).daily_stats ∧
    (record_pomodoro (StoreContent.valid default_statistics) 100 "2026-W15"
      25).total_pomodoros = default_statistics.total_pomodoros + 1 ∧
    (dictGet (record_pomodoro (StoreContent.valid default_statistics) 100
        "2026-W15" 25).daily_stats 100 ⟨0, 0⟩).pomodoros =
      (dictGet default_statistics.daily_stats 100 ⟨0, 0⟩).pomodoros + 1 :=
  ⟨(c10_invariant_preserved default_statistics 100 "2026-W15" 25 (by decide) rfl).1,
    (c10_invariant_preserved default_statistics 100 "2026-W15" 25 (by decide) rfl).2.1,
    (c10_invariant_preserved default_statistics 100 "2026-W15" 25 (by decide) rfl).2.2.2.1⟩

end Pomodoro
